import Mathlib

/-
Verification of the cros_config_schema compile pipeline
(src/chromeos-config/cros_config_host/v2/cros_config_schema.py).

The YAML/JSON trees the pipeline manipulates are embedded as the inductive
type JVal below.  Python mappings are modelled as association lists in
document order (Python 2 dict iteration order is unspecified; the list order
is the model of that order); Python lists are Lean lists; scalars are the
null/bool/num/str constructors (numbers are modelled as integers, which
covers every value the claims touch).  Fallible Python code (KeyError,
AttributeError, TypeError) is modelled with Except String; the error string
records the kind of Python exception raised.  Each embedded definition cites
the Python function it translates.
-/

inductive JVal : Type where
  | null : JVal
  | bool (b : Bool) : JVal
  | num (n : Int) : JVal
  | str (s : String) : JVal
  | arr (xs : List JVal) : JVal
  | obj (kvs : List (String × JVal)) : JVal

mutual

def beqV : JVal → JVal → Bool
  | .null, .null => true
  | .bool a, .bool b => a == b
  | .num a, .num b => a == b
  | .str a, .str b => a == b
  | .arr xs, .arr ys => beqL xs ys
  | .obj xs, .obj ys => beqF xs ys
  | _, _ => false
termination_by structural a _b => a

def beqL : List JVal → List JVal → Bool
  | [], [] => true
  | x :: xs, y :: ys => beqV x y && beqL xs ys
  | _, _ => false
termination_by structural a _b => a

def beqF : List (String × JVal) → List (String × JVal) → Bool
  | [], [] => true
  | kv :: xs, lw :: ys => beqP kv lw && beqF xs ys
  | _, _ => false
termination_by structural a _b => a

def beqP : (String × JVal) → (String × JVal) → Bool
  | (k, v), (l, w) => k == l && beqV v w
termination_by structural a _b => a

end

theorem beqV_eq : ∀ a b : JVal, beqV a b = true ↔ a = b := by
  refine @JVal.rec (fun a => ∀ b, beqV a b = true ↔ a = b)
    (fun xs => ∀ ys, beqL xs ys = true ↔ xs = ys)
    (fun kvs => ∀ ls, beqF kvs ls = true ↔ kvs = ls)
    (fun kv => ∀ lw, beqP kv lw = true ↔ kv = lw)
    ?_ ?_ ?_ ?_ ?_ ?_ ?_ ?_ ?_ ?_ ?_
  · intro b; cases b <;> simp [beqV]
  · intro a b; cases b <;> simp [beqV]
  · intro a b; cases b <;> simp [beqV]
  · intro a b; cases b <;> simp [beqV]
  · intro xs ih b; cases b <;> simp [beqV, ih]
  · intro kvs ih b; cases b <;> simp [beqV, ih]
  · intro ys; cases ys <;> simp [beqL]
  · intro x xs ih1 ih2 ys; cases ys <;> simp [beqL, ih1, ih2]
  · intro ls; cases ls <;> simp [beqF]
  · intro kv kvs ih1 ih2 ls; cases ls <;> simp [beqF, ih1, ih2]
  · intro k v ih lw; obtain ⟨l, w⟩ := lw; simp [beqP, ih]

instance : DecidableEq JVal := fun a b => decidable_of_iff (beqV a b = true) (beqV_eq a b)

/-- Association-list lookup, the model of Python dict lookup / namedtuple
field access.  Returns the binding of the FIRST occurrence of the key. -/
def lookupF : List (String × JVal) → String → Option JVal
  | [], _ => none
  | (k, v) :: rest, key => if k = key then some v else lookupF rest key

/-- Python dict assignment d[key] = v: replaces the value in place if the key
is present, else appends a new binding. -/
def setF : List (String × JVal) → String → JVal → List (String × JVal)
  | [], key, v => [(key, v)]
  | (k, w) :: rest, key, v =>
    if k = key then (k, v) :: rest else (k, w) :: setF rest key v

/-- Python truthiness of a value ("if x:"). -/
def truthy : JVal → Bool
  | .null => false
  | .bool b => b
  | .num n => n ≠ 0
  | .str s => s ≠ ""
  | .arr xs => xs ≠ []
  | .obj kvs => kvs ≠ []

/-- A single-quote character, built from its code point. -/
def sQuote : String := String.singleton (Char.ofNat 39)

/-- Comma-space join of rendered list elements, as in Python list repr. -/
def joinComma : List String → String
  | [] => ""
  | [x] => x
  | x :: rest => x ++ (", ") ++ joinComma rest

mutual

/-- Python 2 repr() of a JSON-loaded value: strings are unicode (so they
render with a u prefix and single quotes), None/True/False/ints as usual,
lists in brackets, dicts in braces.  String escaping inside the quotes is
not modelled (no claim exercises a quote or backslash inside a name). -/
def pyRepr : JVal → String
  | .null => "None"
  | .bool true => "True"
  | .bool false => "False"
  | .num n => toString n
  | .str s => ("u") ++ sQuote ++ s ++ sQuote
  | .arr xs => ("[") ++ pyReprItems xs ++ ("]")
  | .obj kvs => ("\x7b") ++ pyReprFields kvs ++ ("\x7d")
termination_by structural a => a

def pyReprItems : List JVal → String
  | [] => ""
  | [x] => pyRepr x
  | x :: rest => pyRepr x ++ (", ") ++ pyReprItems rest
termination_by structural a => a

def pyReprFields : List (String × JVal) → String
  | [] => ""
  | [(k, v)] => ("u") ++ sQuote ++ k ++ sQuote ++ (": ") ++ pyRepr v
  | (k, v) :: rest => ("u") ++ sQuote ++ k ++ sQuote ++ (": ") ++ pyRepr v ++ (", ") ++ pyReprFields rest
termination_by structural a => a

end

/-- Python str() / "%s" formatting of a value: identical to repr except that
a string renders as itself, without quotes. -/
def pyStr : JVal → String
  | .str s => s
  | v => pyRepr v

/-- os.path.join with two components (posixpath.join), written over the
character lists so that it evaluates by kernel reduction. -/
def osPathJoin (a b : String) : String :=
  if ("/").data.isPrefixOf b.data then b
  else if a = "" ∨ ("/").data.isSuffixOf a.data then a ++ b
  else a ++ ("/") ++ b

/-- Python str.replace worker over character lists.  The fuel argument is an
upper bound on the number of scan steps; each step consumes at least one
character, so fuel = length of the subject suffices.  Only non-empty
patterns are modelled (every call site uses a non-empty pattern). -/
def replFuel (pat repl : List Char) : Nat → List Char → List Char
  | _, [] => []
  | 0, s => s
  | fuel + 1, c :: rest =>
    if pat ≠ [] && pat.isPrefixOf (c :: rest) then
      repl ++ replFuel pat repl fuel (List.drop (pat.length - 1) rest)
    else
      c :: replFuel pat repl fuel rest

/-- Python str.replace(pat, repl): replaces every (non-overlapping,
left-to-right) occurrence. -/
def pyReplace (s pat repl : String) : String :=
  String.mk (replFuel pat.data repl.data s.data.length s.data)

/-- Key normalization applied by GetNamedTuple:
k.replace(chr(45), chr(95)).replace(chr(64), chr(95)) — every hyphen and
at-sign becomes an underscore. -/
def normKey (k : String) : String :=
  pyReplace (pyReplace k ("-") ("_")) ("@") ("_")

/-- Whether pat occurs as a contiguous sublist of s. -/
def listContains (pat : List Char) : List Char → Bool
  | [] => pat.isPrefixOf []
  | c :: rest => pat.isPrefixOf (c :: rest) || listContains pat rest

/-- Whether pat occurs as a substring of s. -/
def strContains (s pat : String) : Bool := listContains pat.data s.data

/-- Python str.endswith. -/
def pyEndsWith (s pat : String) : Bool := pat.data.isSuffixOf s.data

/-
Constants of cros_config_schema.py (lines 20-27).
-/

def MODELS : String := "models"

def BUILD_ONLY_ELEMENTS : List String :=
  [("/firmware"), ("/audio/main/card"), ("/audio/main/cras-config-subdir"), ("/audio/main/files")]

def CRAS_CONFIG_DIR : String := "/etc/cras"

/-
GetNamedTuple (cros_config_schema.py lines 29-49): recursively converts a
mapping into a namedtuple.  Every key is normalized with normKey and written
into a fresh dict, so two distinct keys that normalize alike collide and the
later one (in iteration order) overwrites the earlier.  A list VALUE inside a
mapping has its elements converted; a list that is itself the argument is
returned unchanged (it is not a Mapping).  The resulting record is modelled
as an obj whose field list carries the normalized names.
-/

/-- Python dict insertion for GetNamedTuple's new_mapping: overwrite in
place if present, append otherwise. -/
def dictInsert : List (String × JVal) → String → JVal → List (String × JVal)
  | [], k, v => [(k, v)]
  | (k1, v1) :: rest, k, v =>
    if k1 = k then (k1, v) :: rest else (k1, v1) :: dictInsert rest k v

mutual

def GetNamedTuple : JVal → JVal
  | .obj kvs => .obj (ntFields kvs [])
  | v => v
termination_by structural a => a

def ntFields : List (String × JVal) → List (String × JVal) → List (String × JVal)
  | [], acc => acc
  | (k, v) :: rest, acc =>
    match v with
    | .arr xs => ntFields rest (dictInsert acc (normKey k) (.arr (ntItems xs)))
    | .obj kvs => ntFields rest (dictInsert acc (normKey k) (.obj (ntFields kvs [])))
    | w => ntFields rest (dictInsert acc (normKey k) w)
termination_by structural a _b => a

def ntItems : List JVal → List JVal
  | [] => []
  | x :: rest => GetNamedTuple x :: ntItems rest
termination_by structural a => a

end

/-- Attribute access on a converted record (getattr without a default):
yields the field value, or AttributeError when the field is absent or the
value is not a record. -/
def attr (v : JVal) (name : String) : Except String JVal :=
  match v with
  | .obj kvs =>
    match lookupF kvs name with
    | some w => Except.ok w
    | none => Except.error (("AttributeError: ") ++ name)
  | _ => Except.error (("AttributeError: ") ++ name)

/-- getattr(v, name, None): like attr but yields None instead of raising. -/
def getattrD (v : JVal) (name : String) : JVal :=
  match v with
  | .obj kvs =>
    match lookupF kvs name with
    | some w => w
    | none => .null
  | _ => .null

/-- Python dict subscript d[key]: KeyError when absent, TypeError when the
value is not a Mapping. -/
def dictGet (v : JVal) (key : String) : Except String JVal :=
  match v with
  | .obj kvs =>
    match lookupF kvs key with
    | some w => Except.ok w
    | none => Except.error (("KeyError: ") ++ key)
  | _ => Except.error ("TypeError")

/-- Python d.get(key, default): AttributeError when the receiver is not a
Mapping. -/
def dictGetD (v : JVal) (key : String) (dflt : JVal) : Except String JVal :=
  match v with
  | .obj kvs =>
    match lookupF kvs key with
    | some w => Except.ok w
    | none => Except.ok dflt
  | _ => Except.error ("AttributeError: get")

/-- One entry of the derived audio asset manifest: a source path (relative
to an asset root) and an absolute destination path. -/
structure AudioFile where
  source : String
  dest : String
deriving DecidableEq

/-
_GetAudioFiles (cros_config_schema.py lines 123-165).  Attribute accesses
follow the Python exactly: card and cras_config_subdir are plain attribute
accesses on the converted record (raising AttributeError when absent), while
the UCM suffix is fetched with getattr(..., chr(39)ucm-suffixchr(39), None)
— note the HYPHENATED name, which can never match a normalized field — and
firmware_bin with getattr(..., firmware_bin, None).
-/
def GetAudioFiles (model_dict : JVal) : Except String (List AudioFile) := do
  let model := GetNamedTuple model_dict
  let audio ← attr model ("audio")
  let main ← attr audio ("main")
  let card ← attr main ("card")
  let subdir ← attr main ("cras_config_subdir")
  let subdir_path := if truthy subdir then pyStr subdir ++ ("/") else ""
  let cras_source := "cras-config"
  let cras_dest := CRAS_CONFIG_DIR
  let f1 : AudioFile :=
    ⟨osPathJoin cras_source (subdir_path ++ pyStr card),
     osPathJoin cras_dest (subdir_path ++ pyStr card)⟩
  let f2 : AudioFile :=
    ⟨osPathJoin cras_source (subdir_path ++ ("dsp.ini")),
     osPathJoin cras_dest (subdir_path ++ ("dsp.ini"))⟩
  let ucm_source := "ucm-config"
  let ucm_dest := "/ucm/share/alsa/ucm"
  let ucm_suffix := getattrD main ("ucm-suffix")
  let ucm_suffix_path := if truthy ucm_suffix then (".") ++ pyStr ucm_suffix else ""
  let ucm_card_path := pyStr card ++ ucm_suffix_path
  let f3 : AudioFile :=
    ⟨osPathJoin ucm_source (osPathJoin ucm_card_path ("HiFi.conf")),
     osPathJoin ucm_dest (osPathJoin ucm_card_path ("HiFi.conf"))⟩
  let f4 : AudioFile :=
    ⟨osPathJoin ucm_source (osPathJoin ucm_card_path (ucm_card_path ++ (".conf"))),
     osPathJoin ucm_dest (osPathJoin ucm_card_path (ucm_card_path ++ (".conf")))⟩
  let fwbin := getattrD main ("firmware_bin")
  if truthy fwbin then
    return [f1, f2, f3, f4,
      ⟨osPathJoin ("topology") (pyStr fwbin), osPathJoin ("/lib/firmware") (pyStr fwbin)⟩]
  else
    return [f1, f2, f3, f4]

/-- Effectful map corresponding to a Python list comprehension: the element
expression runs left to right and a raised exception aborts the whole
comprehension. -/
def mapEx (f : α → Except String β) : List α → Except String (List β)
  | [] => Except.ok []
  | x :: rest => do
    let y ← f x
    let ys ← mapEx f rest
    return y :: ys

/-
_GetFirmwareUris (cros_config_schema.py lines 167-192).  The bcs_overlay
attribute is fetched with getattr WITHOUT a default, so an absent field
raises AttributeError.  model.name is evaluated inside the comprehension,
hence only when at least one valid image field exists.  The name is bound
to a format placeholder that the template never uses.
-/
def GetFirmwareUris (model_dict : JVal) : Except String (List String) := do
  let model := GetNamedTuple model_dict
  let fw ← attr model ("firmware")
  let fw_dict ← match fw with
    | .obj kvs => Except.ok kvs
    | _ => Except.error ("AttributeError: _asdict")
  let bcs ← attr fw ("bcs_overlay")
  if truthy bcs then do
    let bcsStr ← match bcs with
      | .str s => Except.ok s
      | _ => Except.error ("AttributeError: replace")
    let bcs_overlay := pyReplace bcsStr ("overlay-") ("")
    let bt ← attr fw ("build_targets")
    let base_model ← attr bt ("coreboot")
    let valid_images := fw_dict.filter (fun kv => pyEndsWith kv.1 ("image") && truthy kv.2)
    mapEx (fun kv => do
      let _name ← attr model ("name")
      return ("gs://chromeos-binaries/HOME/bcs-") ++ bcs_overlay ++ ("/overlay-")
        ++ bcs_overlay ++ ("/chromeos-base/chromeos-firmware-") ++ pyStr base_model
        ++ ("/") ++ pyStr kv.2) valid_images
  else
    return []

/-
FilterBuildElements / _FilterBuildElements (cros_config_schema.py lines
194-223).  The recursion tracks the slash-joined absolute path; a key whose
full path is in the build-only list is dropped (without descending into it),
and mapping values of the surviving keys are filtered recursively.  The
build-only list is a module-level constant in the source; it is a parameter
here so that the spec scenario of a different build-only set is also
expressible, and the source constant is instantiated in FilterBuildElements.
-/

mutual

def filterF (bset : List String) : List (String × JVal) → String → List (String × JVal)
  | [], _ => []
  | (k, v) :: rest, path =>
    let full := path ++ ("/") ++ k
    if bset.contains full then filterF bset rest path
    else (k, filterV bset v full) :: filterF bset rest path
termination_by structural a _b => a

def filterV (bset : List String) : JVal → String → JVal
  | .obj kvs, path => .obj (filterF bset kvs path)
  | v, _ => v
termination_by structural a _b => a

end

/-- FilterBuildElements: filters every model of the document with the
build-only constant.  A document without a models key raises KeyError; a
models collection or model record of the wrong shape raises TypeError when
the Python iteration/subscription would. -/
def FilterBuildElements (config : JVal) : Except String JVal := do
  let models ← dictGet config MODELS
  match models with
  | .arr items => do
    let filtered ← mapEx (fun m =>
      match m with
      | .obj kvs => Except.ok (JVal.obj (filterF BUILD_ONLY_ELEMENTS kvs ("")))
      | _ => Except.error ("TypeError")) items
    match config with
    | .obj ckvs => Except.ok (.obj (setF ckvs MODELS (.arr filtered)))
    | _ => Except.error ("TypeError")
  | _ => Except.error ("TypeError")

/-
ValidateConfig (cros_config_schema.py lines 246-258): collects every
model's name in document order and raises ValidationError when the name
count differs from the distinct-name count.  The message interpolates the
full Python list of names.
-/

/-- The list comprehension over models building model_names. -/
def extractNames : List JVal → Except String (List JVal)
  | [] => Except.ok []
  | m :: rest => do
    let n ← dictGet m ("name")
    let ns ← extractNames rest
    return n :: ns

def ValidateConfig (config : JVal) : Except String Unit := do
  let models ← dictGet config ("models")
  match models with
  | .arr items => do
    let names ← extractNames items
    if names.length ≠ names.dedup.length then
      Except.error (("Model names are not unique: [") ++ joinComma (names.map pyRepr) ++ ("]"))
    else
      Except.ok ()
  | _ => Except.error ("TypeError")

/-
Canonicalization: the json.dumps(..., sort_keys=True) / json.loads round
trip of TransformConfig lines 100-101, and the sort_keys part of every
json.dumps call.  Key order is the lexicographic order on code points, the
order used by both Python 2 sorted() on unicode strings and json.dumps.
-/

/-- Code-point comparison of keys, written over the character lists. -/
def charsLe : List Char → List Char → Bool
  | [], _ => true
  | _ :: _, [] => false
  | a :: as, b :: bs =>
    if a.toNat < b.toNat then true
    else if b.toNat < a.toNat then false
    else charsLe as bs

def keyLe (a b : String) : Bool := charsLe a.data b.data

/-- Insertion into a key-sorted field list (stable: an equal key goes after
the existing ones only when inserted later; field lists of parsed JSON have
distinct keys, so stability is immaterial). -/
def insF (k : String) (v : JVal) : List (String × JVal) → List (String × JVal)
  | [] => [(k, v)]
  | (k1, v1) :: rest =>
    if keyLe k k1 then (k, v) :: (k1, v1) :: rest
    else (k1, v1) :: insF k v rest

def sortF : List (String × JVal) → List (String × JVal)
  | [] => []
  | (k, v) :: rest => insF k v (sortF rest)

mutual

def canon : JVal → JVal
  | .obj kvs => .obj (sortF (canonFields kvs))
  | .arr xs => .arr (canonItems xs)
  | v => v
termination_by structural a => a

def canonFields : List (String × JVal) → List (String × JVal)
  | [] => []
  | (k, v) :: rest => (k, canon v) :: canonFields rest
termination_by structural a => a

def canonItems : List JVal → List JVal
  | [] => []
  | x :: rest => canon x :: canonItems rest
termination_by structural a => a

end

/-- Two spaces per indentation level, json.dumps(..., indent=2). -/
def spacesN (n : Nat) : String := String.mk (List.replicate (2 * n) (Char.ofNat 32))

/-- JSON string escaping for the characters the serializer must protect;
claims only exercise names without escapes. -/
def jsonEsc (s : String) : String :=
  String.mk (s.data.foldr (fun c acc =>
    if c = Char.ofNat 34 then Char.ofNat 92 :: Char.ofNat 34 :: acc
    else if c = Char.ofNat 92 then Char.ofNat 92 :: Char.ofNat 92 :: acc
    else if c = Char.ofNat 10 then Char.ofNat 92 :: (Char.ofNat 110) :: acc
    else c :: acc) [])

mutual

/-- json.dumps with indent=2, emitting fields in list order (sort_keys is
applied by serializing the canon image, see dumpsSorted). -/
def jsonDumps (ind : Nat) : JVal → String
  | .null => "null"
  | .bool true => "true"
  | .bool false => "false"
  | .num n => toString n
  | .str s => ("\"") ++ jsonEsc s ++ ("\"")
  | .arr [] => "[]"
  | .arr (x :: rest) =>
    ("[\n") ++ dumpItems (ind + 1) (x :: rest) ++ ("\n") ++ spacesN ind ++ ("]")
  | .obj [] => "\x7b\x7d"
  | .obj (kv :: rest) =>
    ("\x7b\n") ++ dumpFields (ind + 1) (kv :: rest) ++ ("\n") ++ spacesN ind ++ ("\x7d")
termination_by structural a => a

def dumpItems (ind : Nat) : List JVal → String
  | [] => ""
  | [x] => spacesN ind ++ jsonDumps ind x
  | x :: rest => spacesN ind ++ jsonDumps ind x ++ (",\n") ++ dumpItems ind rest
termination_by structural a => a

def dumpFields (ind : Nat) : List (String × JVal) → String
  | [] => ""
  | [(k, v)] => spacesN ind ++ ("\"") ++ jsonEsc k ++ ("\": ") ++ jsonDumps ind v
  | (k, v) :: rest =>
    spacesN ind ++ ("\"") ++ jsonEsc k ++ ("\": ") ++ jsonDumps ind v ++ (",\n")
      ++ dumpFields ind rest
termination_by structural a => a

end

/-- json.dumps(v, sort_keys=True, indent=2). -/
def dumpsSorted (v : JVal) : String := jsonDumps 0 (canon v)

/-
TransformConfig (cros_config_schema.py lines 87-121).  The yaml.load text
frontend is the boundary of the embedding: the argument is the parsed source
tree.  Lines 99-101 are the canon round trip; everything afterwards sees
only the canonical tree.  The deriver mutates each model in place: the
resolved cras-config-dir is written back BEFORE _GetAudioFiles runs, and
_GetFirmwareUris sees the model with the derived audio files already
attached, exactly as the Python mutation order does.
-/

def audioFilesToJVal (files : List AudioFile) : JVal :=
  .arr (files.map (fun f => .obj [(("source"), .str f.source), (("dest"), .str f.dest)]))

def deriveModel (m : JVal) : Except String JVal := do
  let audioTree ← dictGet m ("audio")
  let audioMain ← dictGet audioTree ("main")
  let main_dir ← dictGetD audioMain ("cras-config-dir") (.str CRAS_CONFIG_DIR)
  let sub_dir ← dictGetD audioMain ("cras-config-subdir") .null
  let main_dir2 : JVal :=
    if truthy sub_dir then .str (pyStr main_dir ++ ("/") ++ pyStr sub_dir) else main_dir
  match audioMain, audioTree, m with
  | .obj amain, .obj atree, .obj mkvs => do
    let amain1 := setF amain ("cras-config-dir") main_dir2
    let m1 := JVal.obj (setF mkvs ("audio") (.obj (setF atree ("main") (.obj amain1))))
    let files ← GetAudioFiles m1
    let amain2 := setF amain1 ("files") (audioFilesToJVal files)
    let m2 := JVal.obj (setF mkvs ("audio") (.obj (setF atree ("main") (.obj amain2))))
    let uris ← GetFirmwareUris m2
    let fwTree ← dictGet m2 ("firmware")
    match fwTree, m2 with
    | .obj fkvs, .obj m2kvs =>
      return JVal.obj
        (setF m2kvs ("firmware") (.obj (setF fkvs ("bcs-uris") (.arr (uris.map JVal.str)))))
    | _, _ => Except.error ("TypeError")
  | _, _, _ => Except.error ("AttributeError: get")

def TransformConfig (t : JVal) : Except String String := do
  let c := canon t
  let models ← dictGet c MODELS
  match models with
  | .arr items => do
    let items2 ← mapEx deriveModel items
    return dumpsSorted (.obj [(MODELS, .arr items2)])
  | _ => Except.error ("TypeError")

/-- Recursive key-sortedness of a tree: every mapping's keys appear in
non-decreasing code-point order, at every depth. -/
def chainLe : List (String × JVal) → Bool
  | [] => true
  | [_] => true
  | (k1, _) :: (k2, v2) :: rest => keyLe k1 k2 && chainLe ((k2, v2) :: rest)

mutual

def keysSortedV : JVal → Bool
  | .obj kvs => chainLe kvs && keysSortedF kvs
  | .arr xs => keysSortedI xs
  | _ => true
termination_by structural a => a

def keysSortedF : List (String × JVal) → Bool
  | [] => true
  | (_, v) :: rest => keysSortedV v && keysSortedF rest
termination_by structural a => a

def keysSortedI : List JVal → Bool
  | [] => true
  | x :: rest => keysSortedV x && keysSortedI rest
termination_by structural a => a

end

instance {ε α : Type} [DecidableEq ε] [DecidableEq α] : DecidableEq (Except ε α) := fun a b =>
  match a, b with
  | .ok x, .ok y => decidable_of_iff (x = y) (by simp)
  | .error x, .error y => decidable_of_iff (x = y) (by simp)
  | .ok _, .error _ => isFalse (by simp)
  | .error _, .ok _ => isFalse (by simp)

/-
Concrete documents used by the claim theorems, their witnesses and their
counterexamples.
-/

/-- A model whose audio descriptor has card bay and nothing else: the
cras-config-subdir field is wholly absent. -/
def c1ex : JVal := .obj [("audio", .obj [("main", .obj [("card", .str "bay")])])]

/-- A model with card bay and an explicitly null cras-config-subdir. -/
def c1present : JVal :=
  .obj [("audio", .obj [("main", .obj [("card", .str "bay"), ("cras-config-subdir", .null)])])]

/-- The four-entry manifest the claim C1 expects. -/
def c1FourFiles : List AudioFile :=
  [⟨("cras-config/bay"), ("/etc/cras/bay")⟩,
   ⟨("cras-config/dsp.ini"), ("/etc/cras/dsp.ini")⟩,
   ⟨("ucm-config/bay/HiFi.conf"), ("/ucm/share/alsa/ucm/bay/HiFi.conf")⟩,
   ⟨("ucm-config/bay/bay.conf"), ("/ucm/share/alsa/ucm/bay/bay.conf")⟩]

/-- A model with card bay, null subdir and UCM suffix 1mic. -/
def c2model : JVal :=
  .obj [("audio", .obj [("main", .obj
    [("card", .str "bay"), ("cras-config-subdir", .null), ("ucm-suffix", .str "1mic")])])]

/-- A model whose firmware descriptor has no bcs-overlay field at all. -/
def c3absent : JVal :=
  .obj [("name", .str "x"), ("firmware", .obj [("build-targets", .obj [("coreboot", .str "y")])])]

/-- A model whose firmware descriptor has an empty bcs-overlay. -/
def c3empty : JVal :=
  .obj [("name", .str "x"), ("firmware", .obj
    [("bcs-overlay", .str ""), ("build-targets", .obj [("coreboot", .str "y")])])]

/-- A model with a bcs-overlay but no coreboot entry in build-targets. -/
def c4model : JVal :=
  .obj [("name", .str "x"), ("firmware", .obj
    [("bcs-overlay", .str "overlay-foo"), ("build-targets", .obj [("depthcharge", .str "y")])])]

/-- A model with overlay-reef, coreboot target pyro and one image field. -/
def c5model : JVal :=
  .obj [("name", .str "m"), ("firmware", .obj
    [("bcs-overlay", .str "overlay-reef"), ("build-targets", .obj [("coreboot", .str "pyro")]),
     ("main-image", .str "image.bin")])]

/-- The single firmware URI the code derives for c5model. -/
def c5uri : String :=
  "gs://chromeos-binaries/HOME/bcs-reef/overlay-reef/chromeos-base/chromeos-firmware-pyro/image.bin"

/-- Number of positions of s at which pat occurs as a substring. -/
def countOccs (s pat : String) : Nat :=
  (List.range (s.data.length + 1)).countP (fun i => pat.data.isPrefixOf (s.data.drop i))

/-- A model whose audio descriptor omits the optional cras-config-subdir. -/
def c6missing : JVal := .obj [("audio", .obj [("main", .obj [("card", .str "a")])])]

/-- A model whose audio descriptor omits only ucm-suffix and firmware-bin. -/
def c6base : JVal :=
  .obj [("audio", .obj [("main", .obj [("card", .str "a"), ("cras-config-subdir", .null)])])]

/-- c6base together with a firmware-bin field. -/
def c6fwbin : JVal :=
  .obj [("audio", .obj [("main", .obj
    [("card", .str "a"), ("cras-config-subdir", .null), ("firmware-bin", .str "fw.bin")])])]

/-- A config whose two models are both named reef. -/
def c7doc : JVal := .obj [("models", .arr [.obj [("name", .str "reef")], .obj [("name", .str "reef")]])]

/-- A transformed-shaped document: one model with derived audio fields and a
firmware subtree. -/
def c8doc : JVal := .obj [("models", .arr [.obj
  [("name", .str "x"),
   ("audio", .obj [("main", .obj
     [("card", .str "bay"), ("cras-config-dir", .str "/etc/cras"), ("files", .arr [])])]),
   ("firmware", .obj [("bcs-uris", .arr [])])]])]

/-- The document FilterBuildElements produces from c8doc. -/
def c8docFiltered : JVal := .obj [("models", .arr [.obj
  [("name", .str "x"),
   ("audio", .obj [("main", .obj [("cras-config-dir", .str "/etc/cras")])])]])]

/-- First model's audio subtree of a document. -/
def firstModelAudio (d : JVal) : Except String JVal := do
  let ms ← dictGet d MODELS
  match ms with
  | .arr (m :: _) => dictGet m ("audio")
  | _ => Except.error ("TypeError")

/-- First model's firmware subtree of a document. -/
def firstModelFirmware (d : JVal) : Except String JVal := do
  let ms ← dictGet d MODELS
  match ms with
  | .arr (m :: _) => dictGet m ("firmware")
  | _ => Except.error ("TypeError")

/-- Two parsed source trees with the same content and different top-level
key order, and the transform output both produce. -/
def c9t1 : JVal := .obj [("extra", .null), ("models", .arr [])]

def c9t2 : JVal := .obj [("models", .arr []), ("extra", .null)]

def c9out : String := ("\x7b\n  \"models\": []\n\x7d")

def c9u : JVal := .obj [("models", .arr [])]

/-
Closed claim theorems and counterexamples.
-/

/-- Claim C1, counterexample: for the model whose audio descriptor has card
bay and NO cras-config-subdir field, the derivation does not produce the
four-entry manifest the claim asserts — it raises AttributeError, because
_GetAudioFiles reads model.audio.main.cras_config_subdir without a getattr
default. -/
theorem c1_absent_subdir_counterexample :
    GetAudioFiles c1ex = Except.error (("AttributeError: cras_config_subdir")) ∧
    GetAudioFiles c1ex ≠ Except.ok c1FourFiles := by
  constructor
  · decide
  · decide

/-- Claim C2 (code_bug): the converted record of a model carrying
ucm-suffix 1mic does hold the suffix under the normalized field name
ucm_suffix, but _GetAudioFiles queries getattr with the HYPHENATED name
ucm-suffix, which no normalized record can carry, so the suffix is silently
ignored: both UCM entries are nested under bay, not bay.1mic, and the
second file is bay.conf, not bay.1mic.conf — against the claim and the
dead suffix-appending code path right next to it. -/
theorem c2_ucm_suffix_ignored :
    GetNamedTuple c2model = .obj [("audio", .obj [("main", .obj
      [("card", .str "bay"), ("cras_config_subdir", .null), ("ucm_suffix", .str "1mic")])])] ∧
    GetAudioFiles c2model = Except.ok c1FourFiles := by
  constructor
  · decide
  · decide

/-- Claim C3 (code_bug): a model with an EMPTY bcs-overlay does derive an
empty URI list, but a model with the field wholly ABSENT raises
AttributeError — getattr(fw, bcs_overlay) is called without a default —
against the claim (and the docstring promise of an empty list on failure). -/
theorem c3_absent_overlay_raises :
    GetFirmwareUris c3absent = Except.error (("AttributeError: bcs_overlay")) ∧
    GetFirmwareUris c3empty = Except.ok [] := by
  constructor
  · decide
  · decide

/-- Claim C6 (code_bug): omitting ucm-suffix or firmware-bin indeed just
omits the corresponding entries, but omitting cras-config-subdir raises
AttributeError instead of omitting the subdirectory prefix. -/
theorem c6_missing_subdir_raises :
    GetAudioFiles c6missing = Except.error (("AttributeError: cras_config_subdir")) ∧
    GetAudioFiles c6base = Except.ok
      [⟨("cras-config/a"), ("/etc/cras/a")⟩,
       ⟨("cras-config/dsp.ini"), ("/etc/cras/dsp.ini")⟩,
       ⟨("ucm-config/a/HiFi.conf"), ("/ucm/share/alsa/ucm/a/HiFi.conf")⟩,
       ⟨("ucm-config/a/a.conf"), ("/ucm/share/alsa/ucm/a/a.conf")⟩] ∧
    GetAudioFiles c6fwbin = Except.ok
      [⟨("cras-config/a"), ("/etc/cras/a")⟩,
       ⟨("cras-config/dsp.ini"), ("/etc/cras/dsp.ini")⟩,
       ⟨("ucm-config/a/HiFi.conf"), ("/ucm/share/alsa/ucm/a/HiFi.conf")⟩,
       ⟨("ucm-config/a/a.conf"), ("/ucm/share/alsa/ucm/a/a.conf")⟩,
       ⟨("topology/fw.bin"), ("/lib/firmware/fw.bin")⟩] := by
  refine ⟨by decide, by decide, by decide⟩

/-- Claim C5, counterexample: for a model with bcs-overlay overlay-reef and
coreboot target pyro, the single derived URI contains the substring
bcs-reef exactly ONCE (the template's second reef sits after the literal
overlay-, not after bcs-), so the claimed two occurrences are refuted. -/
theorem c5_bcs_once_counterexample :
    GetFirmwareUris c5model = Except.ok [c5uri] ∧
    countOccs c5uri ("bcs-reef") = 1 ∧
    ¬ 2 ≤ countOccs c5uri ("bcs-reef") := by
  refine ⟨by decide, by decide, by decide⟩

/-- Claim C8, counterexample: filtering a transformed document with the
code's build-only set (which contains /firmware) does remove the firmware
subtree, but the audio subtree is NOT left untouched: the build-only
entries /audio/main/card and /audio/main/files are stripped from it. -/
theorem c8_audio_filtered_counterexample :
    FilterBuildElements c8doc = Except.ok c8docFiltered ∧
    firstModelAudio c8docFiltered ≠ firstModelAudio c8doc ∧
    firstModelFirmware c8docFiltered = Except.error (("KeyError: firmware")) := by
  refine ⟨by decide, by decide, by decide⟩

/-- Reduction of a successful monadic bind in the Except monad. -/
theorem exbind_ok {α β ε : Type} (a : α) (f : α → Except ε β) :
    (Except.ok a >>= f) = f a := rfl

/-- Reduction of a failing monadic bind in the Except monad. -/
theorem exbind_error {α β ε : Type} (e : ε) (f : α → Except ε β) :
    ((Except.error e : Except ε α) >>= f) = Except.error e := rfl

/-- Claim C1, amended: for every model whose converted audio record has
card bay, a PRESENT but null cras-config-subdir, no UCM suffix and no
firmware binary, the derived manifest is exactly the four claimed entries.
(The claim as frozen also covers a wholly absent subdir field, which the
code instead rejects with AttributeError — see the counterexample.) -/
theorem c1_amended_manifest (model audio : JVal) (mn : List (String × JVal))
    (h1 : attr (GetNamedTuple model) ("audio") = Except.ok audio)
    (h2 : attr audio ("main") = Except.ok (.obj mn))
    (h3 : lookupF mn ("card") = some (.str "bay"))
    (h4 : lookupF mn ("cras_config_subdir") = some .null)
    (h5 : lookupF mn ("ucm-suffix") = none)
    (h6 : lookupF mn ("firmware_bin") = none) :
    GetAudioFiles model = Except.ok c1FourFiles := by
  simp only [GetAudioFiles, h1, h2, exbind_ok]
  simp only [attr, getattrD, h3, h4, h5, h6]
  decide

/-- Claim C1, witness: the amended theorem applied to the concrete model
with card bay and a null cras-config-subdir. -/
theorem c1_amended_manifest_witness :
    GetAudioFiles c1present = Except.ok c1FourFiles :=
  c1_amended_manifest c1present
    (.obj [("main", .obj [("card", .str "bay"), ("cras_config_subdir", .null)])])
    [("card", .str "bay"), ("cras_config_subdir", .null)]
    (by decide) (by decide) (by decide) (by decide) (by decide) (by decide)

/-- Claim C4: for every model whose converted firmware record carries a
non-empty bcs-overlay but whose build-targets record has no coreboot
field, URI derivation fails fast with the derivation error (realized in
the source as the AttributeError raised by fw.build_targets.coreboot)
instead of silently defaulting. -/
theorem c4_missing_coreboot_fails (model : JVal) (fw bt : List (String × JVal)) (s : String)
    (h1 : attr (GetNamedTuple model) ("firmware") = Except.ok (.obj fw))
    (h2 : lookupF fw ("bcs_overlay") = some (.str s))
    (h3 : s ≠ "")
    (h4 : lookupF fw ("build_targets") = some (.obj bt))
    (h5 : lookupF bt ("coreboot") = none) :
    GetFirmwareUris model = Except.error (("AttributeError: coreboot")) := by
  simp only [GetFirmwareUris, h1, exbind_ok]
  simp only [attr, h2, h4, h5, truthy, h3, exbind_ok, exbind_error]
  simp [h3]

/-- Claim C4, witness: the theorem applied to the concrete model with
bcs-overlay overlay-foo and a build-targets record without coreboot. -/
theorem c4_missing_coreboot_fails_witness :
    GetFirmwareUris c4model = Except.error (("AttributeError: coreboot")) :=
  c4_missing_coreboot_fails c4model
    [("bcs_overlay", .str "overlay-foo"), ("build_targets", .obj [("depthcharge", .str "y")])]
    [("depthcharge", .str "y")] ("overlay-foo")
    (by decide) (by decide) (by decide) (by decide) (by decide)

/-- The character list of a literally built string. -/
theorem strMk_data (l : List Char) : (String.mk l).data = l := rfl

/-- Single-character replacement is a character map. -/
theorem replFuel_single (c0 c1 : Char) (s : List Char) :
    ∀ fuel, s.length ≤ fuel →
    replFuel [c0] [c1] fuel s = s.map (fun c => if c = c0 then c1 else c) := by
  induction s with
  | nil => intro fuel _; cases fuel <;> simp [replFuel]
  | cons c rest ih =>
    intro fuel h
    match fuel with
    | f + 1 =>
      simp only [List.length_cons, Nat.add_le_add_iff_right] at h
      by_cases hc : c0 = c
      · subst hc
        simp [replFuel, List.isPrefixOf, ih f h]
      · have hcb : (c0 == c) = false := beq_eq_false_iff_ne.mpr hc
        simp [replFuel, List.isPrefixOf, hcb, ih f h]
        rw [if_neg (fun hh => hc hh.symm)]

/-- Claim C10: the record conversion normalizes every key by mapping each
hyphen and at-sign to an underscore (first conjunct: normKey is exactly
that character map), and a mapping with two distinct keys that normalize
alike converts to a record with a SINGLE field holding the later value:
the earlier field is silently overwritten (second conjunct). -/
theorem c10_key_normalization_collision :
    (∀ k : String, normKey k =
      String.mk (k.data.map (fun c => if c = ('-') ∨ c = ('@') then ('_') else c))) ∧
    (∀ (k1 k2 s1 s2 : String), k1 ≠ k2 → normKey k1 = normKey k2 →
      GetNamedTuple (.obj [(k1, .str s1), (k2, .str s2)]) =
        .obj [(normKey k1, .str s2)]) := by
  constructor
  · intro k
    have h1 : pyReplace k ("-") ("_") =
        String.mk (k.data.map (fun c => if c = ('-') then ('_') else c)) := by
      simp only [pyReplace]
      rw [replFuel_single ('-') ('_') k.data k.data.length (le_refl _)]
    have h2 : normKey k = String.mk ((k.data.map (fun c => if c = ('-') then ('_') else c)).map
        (fun c => if c = ('@') then ('_') else c)) := by
      rw [normKey, h1]
      simp only [pyReplace, strMk_data]
      rw [replFuel_single ('@') ('_') _ _ (le_refl _)]
    rw [h2, List.map_map]
    congr 1
    apply List.map_congr_left
    intro c _
    by_cases hd : c = ('-')
    · simp [hd, Function.comp]
    · by_cases ha : c = ('@') <;> simp [hd, ha, Function.comp]
  · intro k1 k2 s1 s2 _hne hnorm
    simp only [GetNamedTuple, ntFields, dictInsert, ← hnorm, if_pos]

/-- Claim C10, witness: the distinct source keys a-b and a@b both normalize
to a_b, and converting a mapping holding both yields a single a_b field
with the later value. -/
theorem c10_key_normalization_collision_witness :
    normKey ("a-b") = ("a_b") ∧ normKey ("a@b") = ("a_b") ∧
    GetNamedTuple (.obj [(("a-b"), .str "x"), (("a@b"), .str "y")]) =
      .obj [(("a_b"), .str "y")] := by
  refine ⟨by decide, by decide, ?_⟩
  have h := c10_key_normalization_collision.2 ("a-b") ("a@b") ("x") ("y")
    (by decide) (by decide)
  rw [show normKey ("a-b") = ("a_b") from by decide] at h
  exact h

/-- A list is a Boolean prefix of itself followed by anything. -/
theorem isPrefixOf_append (l t : List Char) : l.isPrefixOf (l ++ t) = true := by
  induction l with
  | nil => simp [List.isPrefixOf]
  | cons c cs ih => simp [List.isPrefixOf, ih]

/-- Replacement is the identity on a subject without any occurrence of the
pattern. -/
theorem replFuel_no_occ (pat repl : List Char) (s : List Char) :
    ∀ fuel, listContains pat s = false → s.length ≤ fuel →
    replFuel pat repl fuel s = s := by
  induction s with
  | nil => intro fuel _ _; cases fuel <;> simp [replFuel]
  | cons c rest ih =>
    intro fuel hocc hlen
    match fuel with
    | f + 1 =>
      simp only [listContains, Bool.or_eq_false_iff] at hocc
      simp only [List.length_cons, Nat.add_le_add_iff_right] at hlen
      simp [replFuel, hocc.1, ih f hocc.2 hlen]

/-- One replacement step at an exact pattern occurrence at the head. -/
theorem replFuel_strip (pat repl X : List Char) (c : Char) (cs : List Char)
    (hp : pat = c :: cs) (f : Nat) :
    replFuel pat repl (f + 1) (pat ++ X) = repl ++ replFuel pat repl f X := by
  subst hp
  have hcond : (decide ¬(c :: cs = []) && (c :: cs).isPrefixOf (c :: (cs ++ X))) = true := by
    simp [List.isPrefixOf, isPrefixOf_append]
  rw [List.cons_append]
  simp only [replFuel, ne_eq, hcond, if_true]
  congr 1
  rw [show (c :: cs).length - 1 = cs.length by simp]
  rw [List.drop_left]

/-- Stripping the overlay- prefix: str.replace removes exactly the prefix
when the remainder contains no further occurrence of overlay-. -/
theorem pyReplace_overlay (X : String) (hX : strContains X ("overlay-") = false) :
    pyReplace (("overlay-") ++ X) ("overlay-") ("") = X := by
  have hdata : (("overlay-") ++ X).data = ("overlay-").data ++ X.data :=
    String.data_append _ _
  have hlen : (("overlay-").data ++ X.data).length = X.data.length + 8 := by
    simp [List.length_append]
  simp only [pyReplace, hdata, hlen]
  rw [show X.data.length + 8 = (X.data.length + 7) + 1 from rfl]
  rw [replFuel_strip (("overlay-").data) (("").data) X.data ('o') (("verlay-").data) rfl]
  rw [replFuel_no_occ (("overlay-").data) (("").data) X.data (X.data.length + 7) hX (by omega)]
  rfl

/-- mapEx of an elementwise-successful comprehension is a plain map. -/
theorem mapEx_pure {α : Type} (f : α → Except String String) (g : α → String)
    (hf : ∀ x, f x = Except.ok (g x)) (l : List α) :
    mapEx f l = Except.ok (l.map g) := by
  induction l with
  | nil => rfl
  | cons x xs ih => simp [mapEx, hf, ih, exbind_ok]

/-- Claim C5, amended: for every model whose converted firmware record has
bcs-overlay overlay-X (with no further occurrence of overlay- inside X),
a coreboot build target Y and a name field, every derived firmware URI
follows the template
gs://chromeos-binaries/HOME/bcs-X/overlay-X/chromeos-base/chromeos-firmware-Y/filename
— so it contains the substring bcs-X once (not twice, see the
counterexample) and the substring chromeos-firmware-Y. -/
theorem c5_uri_template (model nm : JVal) (fw bt : List (String × JVal)) (X Y : String)
    (hX : strContains X ("overlay-") = false)
    (h1 : attr (GetNamedTuple model) ("firmware") = Except.ok (.obj fw))
    (h2 : lookupF fw ("bcs_overlay") = some (.str (("overlay-") ++ X)))
    (h3 : lookupF fw ("build_targets") = some (.obj bt))
    (h4 : lookupF bt ("coreboot") = some (.str Y))
    (h5 : attr (GetNamedTuple model) ("name") = Except.ok nm) :
    ∃ uris, GetFirmwareUris model = Except.ok uris ∧
      ∀ u ∈ uris, ∃ fname : String,
        u = ("gs://chromeos-binaries/HOME/bcs-") ++ X ++ ("/overlay-") ++ X
            ++ ("/chromeos-base/chromeos-firmware-") ++ Y ++ ("/") ++ fname := by
  have hne : (("overlay-") ++ X) ≠ "" := by
    intro hh
    have hd := congrArg String.data hh
    rw [String.data_append] at hd
    simp only [List.append_eq_nil] at hd
    exact absurd hd.1 (by decide)
  refine ⟨(fw.filter (fun kv => pyEndsWith kv.1 ("image") && truthy kv.2)).map
      (fun kv => ("gs://chromeos-binaries/HOME/bcs-") ++ X ++ ("/overlay-") ++ X
        ++ ("/chromeos-base/chromeos-firmware-") ++ Y ++ ("/") ++ pyStr kv.2), ?_, ?_⟩
  · simp only [GetFirmwareUris, h1, exbind_ok]
    simp only [attr, h2, h3, h4, exbind_ok, truthy, hne]
    simp only [ne_eq, hne, not_false_eq_true, decide_True, if_true, exbind_ok]
    rw [pyReplace_overlay X hX]
    refine mapEx_pure _ _ (fun kv => ?_) _
    have h5u := h5
    simp only [attr,
      show ("AttributeError: ") ++ ("name") = ("AttributeError: name") from rfl] at h5u
    simp [h5u, pyStr]
  · intro u hu
    rw [List.mem_map] at hu
    obtain ⟨kv, _, hk⟩ := hu
    exact ⟨pyStr kv.2, hk.symm⟩

/-- Claim C5, witness: the template theorem applied to the concrete model
with overlay-reef, coreboot pyro and one image field. -/
theorem c5_uri_template_witness :
    ∃ uris, GetFirmwareUris c5model = Except.ok uris ∧
      ∀ u ∈ uris, ∃ fname : String,
        u = ("gs://chromeos-binaries/HOME/bcs-") ++ ("reef") ++ ("/overlay-") ++ ("reef")
            ++ ("/chromeos-base/chromeos-firmware-") ++ ("pyro") ++ ("/") ++ fname :=
  c5_uri_template c5model (.str "m")
    [("bcs_overlay", .str "overlay-reef"),
     ("build_targets", .obj [("coreboot", .str "pyro")]),
     ("main_image", .str "image.bin")]
    [("coreboot", .str "pyro")] ("reef") ("pyro")
    (by decide) (by decide) (by decide) (by decide) (by decide) (by decide)

/-- A list is duplicate-free exactly when deduplication keeps its length. -/
theorem dedup_length_iff (l : List JVal) : l.dedup.length = l.length ↔ l.Nodup := by
  constructor
  · intro h
    have h2 : l.dedup = l := (List.dedup_sublist l).eq_of_length h
    rw [← h2]
    exact List.nodup_dedup l
  · intro h
    rw [List.dedup_eq_self.mpr h]

/-- A list with a duplicate has an element of count at least two. -/
theorem not_nodup_iff_count (l : List JVal) : ¬ l.Nodup ↔ ∃ n, 2 ≤ l.count n := by
  rw [List.nodup_iff_count_le_one]
  push_neg
  constructor
  · rintro ⟨a, ha⟩; exact ⟨a, by omega⟩
  · rintro ⟨a, ha⟩; exact ⟨a, by omega⟩

/-- Every element of a joined list appears verbatim inside the join. -/
theorem joinComma_mem_split (l : List String) (x : String) (hx : x ∈ l) :
    ∃ a b, joinComma l = a ++ x ++ b := by
  induction l with
  | nil => cases hx
  | cons y rest ih =>
    rcases List.mem_cons.mp hx with hx1 | hx2
    · subst hx1
      match rest with
      | [] => exact ⟨"", "", by simp [joinComma]⟩
      | z :: more =>
        refine ⟨"", (", ") ++ joinComma (z :: more), ?_⟩
        simp [joinComma, String.append_assoc]
    · match rest with
      | [] => cases hx2
      | z :: more =>
        obtain ⟨a, b, hab⟩ := ih hx2
        refine ⟨y ++ (", ") ++ a, b, ?_⟩
        simp [joinComma, hab, String.append_assoc]

/-- Claim C7: with a well-formed models collection (every model a record
with a name), the business-rule validator raises exactly when some name
occurs more than once, and the raised message names every duplicated
string identifier verbatim. -/
theorem c7_name_uniqueness (ckvs : List (String × JVal)) (items names : List JVal)
    (hm : lookupF ckvs ("models") = some (.arr items))
    (hn : extractNames items = Except.ok names) :
    ((∃ e, ValidateConfig (.obj ckvs) = Except.error e) ↔ ∃ n, 2 ≤ names.count n) ∧
    (∀ e, ValidateConfig (.obj ckvs) = Except.error e →
      ∀ s : String, 2 ≤ names.count (.str s) → ∃ a b, e = a ++ s ++ b) := by
  have hv : ValidateConfig (.obj ckvs) =
      (if names.length ≠ names.dedup.length then
        Except.error (("Model names are not unique: [") ++ joinComma (names.map pyRepr) ++ ("]"))
      else Except.ok ()) := by
    simp only [ValidateConfig, dictGet, hm, exbind_ok, hn, exbind_ok]
  by_cases hdup : names.length = names.dedup.length
  · have hnodup : names.Nodup := (dedup_length_iff names).mp hdup.symm
    rw [hv, if_neg (by omega)]
    constructor
    · constructor
      · rintro ⟨e, he⟩; cases he
      · rintro ⟨n, hc⟩
        exact absurd (not_nodup_iff_count names |>.mpr ⟨n, hc⟩) (not_not.mpr hnodup)
    · intro e he; cases he
  · have hnotnodup : ¬ names.Nodup := fun hh =>
      hdup (((dedup_length_iff names).mpr hh).symm ▸ rfl)
    rw [hv, if_pos (by omega)]
    constructor
    · constructor
      · intro _
        exact (not_nodup_iff_count names).mp hnotnodup
      · intro _
        exact ⟨_, rfl⟩
    · intro e he s hs
      have hmem : (JVal.str s) ∈ names := by
        by_contra hc
        rw [List.count_eq_zero_of_not_mem hc] at hs
        omega
      have hmem2 : pyRepr (JVal.str s) ∈ names.map pyRepr := List.mem_map_of_mem pyRepr hmem
      obtain ⟨a, b, hab⟩ := joinComma_mem_split _ _ hmem2
      have he2 : e = ("Model names are not unique: [") ++ joinComma (names.map pyRepr) ++ ("]") := by
        cases he; rfl
      refine ⟨("Model names are not unique: [") ++ a ++ ("u") ++ sQuote, sQuote ++ b ++ ("]"), ?_⟩
      rw [he2, hab]
      simp only [pyRepr, String.append_assoc]

/-- No build-only pattern lies strictly below path p (p with a trailing
slash is a prefix of no pattern). -/
def NoDeeper (bset : List String) (p : String) : Prop :=
  ∀ b ∈ bset, ¬ ((p ++ ("/")).data <+: b.data)

/-- Prefix cancellation on the left. -/
theorem prefix_cancel_left {A B C : List Char} (h : A ++ B <+: A ++ C) : B <+: C := by
  obtain ⟨t, ht⟩ := h
  rw [List.append_assoc] at ht
  exact ⟨t, List.append_cancel_left ht⟩

/-- The member test of Python in, unfolded to list membership. -/
theorem contains_mem {l : List String} {x : String} (h : l.contains x = true) : x ∈ l := by
  simpa using h

/-- Below a path with no deeper build-only pattern, the filter is the
identity: nothing is deleted anywhere in the subtree. -/
theorem filterV_untouched (bset : List String) (v : JVal) :
    ∀ p, NoDeeper bset p → filterV bset v p = v := by
  refine @JVal.rec
    (fun v => ∀ p, NoDeeper bset p → filterV bset v p = v)
    (fun _ => True)
    (fun kvs => ∀ p, NoDeeper bset p → filterF bset kvs p = kvs)
    (fun kv => ∀ p, NoDeeper bset p → filterV bset kv.2 p = kv.2)
    ?_ ?_ ?_ ?_ ?_ ?_ ?_ ?_ ?_ ?_ ?_ v
  · intro p _; rfl
  · intro b p _; rfl
  · intro n p _; rfl
  · intro s p _; rfl
  · intro xs _ p _; rfl
  · intro kvs ih p hp
    simp only [filterV]
    rw [ih p hp]
  · trivial
  · intro _ _ _ _; trivial
  · intro p _; rfl
  · intro kv rest ihkv ihrest p hp
    obtain ⟨k, v2⟩ := kv
    have hfull : p ++ ("/") ++ k = (p ++ ("/")) ++ k := rfl
    have hnotin : bset.contains (p ++ ("/") ++ k) = false := by
      cases hcb : bset.contains (p ++ ("/") ++ k) with
      | false => rfl
      | true =>
        have hmem := contains_mem hcb
        have hpre : (p ++ ("/")).data <+: (p ++ ("/") ++ k).data := by
          rw [hfull, String.data_append]
          exact List.prefix_append _ _
        exact absurd hpre (hp _ hmem)
    have hdeep : NoDeeper bset (p ++ ("/") ++ k) := by
      intro b hb hpre
      apply hp b hb
      have hd : ((p ++ ("/") ++ k) ++ ("/")).data =
          (p ++ ("/")).data ++ (k.data ++ ("/").data) := by
        rw [String.data_append, String.data_append, List.append_assoc]
      have h1 : (p ++ ("/")).data <+: ((p ++ ("/") ++ k) ++ ("/")).data := by
        rw [hd]
        exact List.prefix_append _ _
      exact h1.trans hpre
    simp only [filterF, hnotin, Bool.false_eq_true, if_false]
    rw [ihkv _ hdeep, ihrest p hp]
  · intro k v2 ih p hp
    exact ih p hp

/-- The build-only audio keys removed at /audio/main (the statement-side
characterization of what the filter does inside the audio record): exactly
card, cras-config-subdir and files are dropped; every other field keeps its
value untouched. -/
def dropAudioBuild : List (String × JVal) → List (String × JVal)
  | [] => []
  | (k, v) :: rest =>
    if k = ("card") ∨ k = ("cras-config-subdir") ∨ k = ("files") then dropAudioBuild rest
    else (k, v) :: dropAudioBuild rest

/-- No build-only pattern reaches below /audio/main/k for any key k: every
pattern has at most three path segments. -/
theorem noDeeper_below_main (k : String) :
    NoDeeper BUILD_ONLY_ELEMENTS (("/audio/main/") ++ k) := by
  intro b hb hpre
  have hd : ((("/audio/main/") ++ k) ++ ("/")).data =
      ("/audio/main/").data ++ (k.data ++ ("/").data) := by
    rw [String.data_append, String.data_append, List.append_assoc]
  rw [hd] at hpre
  simp only [BUILD_ONLY_ELEMENTS, List.mem_cons, List.not_mem_nil, or_false] at hb
  rcases hb with hb | hb | hb | hb
  · subst hb
    have h1 : ("/audio/main/").data <+: ("/firmware").data :=
      (List.prefix_append _ _).trans hpre
    exact absurd (List.isPrefixOf_iff_prefix.mpr h1) (by decide)
  · subst hb
    rw [show ("/audio/main/card") = ("/audio/main/") ++ ("card") from rfl,
      String.data_append] at hpre
    have hk := prefix_cancel_left hpre
    have hm : ('/') ∈ ("card").data :=
      hk.subset (List.mem_append_right k.data (by decide))
    exact absurd hm (by decide)
  · subst hb
    rw [show ("/audio/main/cras-config-subdir") = ("/audio/main/") ++ ("cras-config-subdir")
      from rfl, String.data_append] at hpre
    have hk := prefix_cancel_left hpre
    have hm : ('/') ∈ ("cras-config-subdir").data :=
      hk.subset (List.mem_append_right k.data (by decide))
    exact absurd hm (by decide)
  · subst hb
    rw [show ("/audio/main/files") = ("/audio/main/") ++ ("files") from rfl,
      String.data_append] at hpre
    have hk := prefix_cancel_left hpre
    have hm : ('/') ∈ ("files").data :=
      hk.subset (List.mem_append_right k.data (by decide))
    exact absurd hm (by decide)

/-- A key at /audio/main that is none of the three build-only audio names
has a full path outside the build-only set. -/
theorem main_key_not_build (k : String)
    (h1 : k ≠ ("card")) (h2 : k ≠ ("cras-config-subdir")) (h3 : k ≠ ("files")) :
    BUILD_ONLY_ELEMENTS.contains (("/audio/main/") ++ k) = false := by
  cases hcb : BUILD_ONLY_ELEMENTS.contains (("/audio/main/") ++ k) with
  | false => rfl
  | true =>
    exfalso
    have hmem := contains_mem hcb
    simp only [BUILD_ONLY_ELEMENTS, List.mem_cons, List.not_mem_nil, or_false] at hmem
    rcases hmem with hq | hq | hq | hq
    · have hq2 := congrArg String.data hq
      rw [String.data_append] at hq2
      have hlen := congrArg List.length hq2
      rw [List.length_append] at hlen
      rw [show ("/audio/main/").data.length = 12 from by decide,
        show ("/firmware").data.length = 9 from by decide] at hlen
      omega
    · rw [show ("/audio/main/card") = ("/audio/main/") ++ ("card") from rfl] at hq
      have := congrArg String.data hq
      rw [String.data_append, String.data_append] at this
      exact h1 (String.ext (List.append_cancel_left this))
    · rw [show ("/audio/main/cras-config-subdir") = ("/audio/main/") ++ ("cras-config-subdir")
        from rfl] at hq
      have := congrArg String.data hq
      rw [String.data_append, String.data_append] at this
      exact h2 (String.ext (List.append_cancel_left this))
    · rw [show ("/audio/main/files") = ("/audio/main/") ++ ("files") from rfl] at hq
      have := congrArg String.data hq
      rw [String.data_append, String.data_append] at this
      exact h3 (String.ext (List.append_cancel_left this))

/-- Inside the audio main record, the filter removes exactly the three
build-only keys and leaves every other binding untouched. -/
theorem filterF_audio_main (mains : List (String × JVal)) :
    filterF BUILD_ONLY_ELEMENTS mains ("/audio/main") = dropAudioBuild mains := by
  induction mains with
  | nil => rfl
  | cons kv rest ih =>
    obtain ⟨k, v⟩ := kv
    have hfull : ("/audio/main") ++ ("/") ++ k = ("/audio/main/") ++ k := rfl
    by_cases h1 : k = ("card")
    · subst h1
      simp only [filterF, dropAudioBuild, hfull]
      rw [if_pos (by decide), if_pos (by simp)]
      exact ih
    · by_cases h2 : k = ("cras-config-subdir")
      · subst h2
        simp only [filterF, dropAudioBuild, hfull]
        rw [if_pos (by decide), if_pos (by simp)]
        exact ih
      · by_cases h3 : k = ("files")
        · subst h3
          simp only [filterF, dropAudioBuild, hfull]
          rw [if_pos (by decide), if_pos (by simp)]
          exact ih
        · simp only [filterF, dropAudioBuild, hfull]
          rw [if_neg (by simpa using main_key_not_build k h1 h2 h3),
            if_neg (by simp [h1, h2, h3])]
          rw [filterV_untouched BUILD_ONLY_ELEMENTS v _ (noDeeper_below_main k), ih]

/-- Looking a key up after filtering: a key whose full path is build-only
is gone; any other key keeps its first binding, with the value filtered at
the deeper path. -/
theorem lookupF_filterF (bset : List String) (kvs : List (String × JVal)) (p key : String) :
    lookupF (filterF bset kvs p) key =
      if bset.contains (p ++ ("/") ++ key) = true then none
      else (lookupF kvs key).map (fun v => filterV bset v (p ++ ("/") ++ key)) := by
  induction kvs with
  | nil =>
    simp only [filterF, lookupF, Option.map_none]
    cases hc : bset.contains (p ++ ("/") ++ key) <;> simp [lookupF]
  | cons kv rest ih =>
    obtain ⟨k, v⟩ := kv
    by_cases hk : k = key
    · subst hk
      cases hc : bset.contains (p ++ ("/") ++ k) with
      | true =>
        simp only [filterF, hc, if_true, ih, hc, lookupF]
      | false =>
        have hn : p ++ ("/") ++ k ∉ bset := by simpa using hc
        simp [filterF, hc, hn, lookupF]
    · cases hc : bset.contains (p ++ ("/") ++ k) with
      | true =>
        simp only [filterF, hc, if_true, ih, lookupF, if_neg hk]
      | false =>
        simp only [filterF, hc, Bool.false_eq_true, if_false, lookupF, if_neg hk, ih]

/-- Claim C8, amended: for every model whose audio subtree is a single
main record, filtering with the code's build-only set removes the entire
firmware subtree and strips exactly the build-only audio entries (card,
cras-config-subdir, files) from the audio record, leaving every other
audio binding untouched; with a build-only set of just /firmware, the
audio subtree is untouched entirely, as the claim asserts. -/
theorem c8_filter_amended (mk mains : List (String × JVal))
    (ha : lookupF mk ("audio") = some (.obj [(("main"), .obj mains)])) :
    lookupF (filterF BUILD_ONLY_ELEMENTS mk ("")) ("firmware") = none ∧
    lookupF (filterF BUILD_ONLY_ELEMENTS mk ("")) ("audio") =
      some (.obj [(("main"), .obj (dropAudioBuild mains))]) ∧
    lookupF (filterF [("/firmware")] mk ("")) ("firmware") = none ∧
    lookupF (filterF [("/firmware")] mk ("")) ("audio") =
      some (.obj [(("main"), .obj mains)]) := by
  refine ⟨?_, ?_, ?_, ?_⟩
  · rw [lookupF_filterF, if_pos (by decide)]
  · rw [lookupF_filterF, if_neg (by decide), ha]
    simp only [Option.map_some']
    rw [show ("") ++ ("/") ++ ("audio") = ("/audio") from rfl]
    simp only [filterV, filterF]
    rw [if_neg (by decide)]
    rw [show ("/audio") ++ ("/") ++ ("main") = ("/audio/main") from rfl]
    rw [filterF_audio_main]
  · rw [lookupF_filterF, if_pos (by decide)]
  · rw [lookupF_filterF, if_neg (by decide), ha]
    simp only [Option.map_some']
    rw [filterV_untouched]
    intro b hb
    simp only [List.mem_cons, List.not_mem_nil, or_false] at hb
    subst hb
    intro hpre
    exact absurd (List.isPrefixOf_iff_prefix.mpr hpre) (by decide)

/-- The single model record of c8doc. -/
def c8model : List (String × JVal) :=
  [(("name"), .str "x"),
   (("audio"), .obj [(("main"), .obj
     [(("card"), .str "bay"), (("cras-config-dir"), .str "/etc/cras"), (("files"), .arr [])])]),
   (("firmware"), .obj [(("bcs-uris"), .arr [])])]

/-- Claim C8, witness: the amended theorem applied to the concrete
transformed-shaped model of c8doc. -/
theorem c8_filter_amended_witness :
    lookupF (filterF BUILD_ONLY_ELEMENTS c8model ("")) ("firmware") = none ∧
    lookupF (filterF BUILD_ONLY_ELEMENTS c8model ("")) ("audio") =
      some (.obj [(("main"), .obj (dropAudioBuild
        [(("card"), .str "bay"), (("cras-config-dir"), .str "/etc/cras"),
         (("files"), .arr [])]))]) ∧
    lookupF (filterF [("/firmware")] c8model ("")) ("firmware") = none ∧
    lookupF (filterF [("/firmware")] c8model ("")) ("audio") =
      some (.obj [(("main"), .obj
        [(("card"), .str "bay"), (("cras-config-dir"), .str "/etc/cras"),
         (("files"), .arr [])])]) :=
  c8_filter_amended c8model
    [(("card"), .str "bay"), (("cras-config-dir"), .str "/etc/cras"), (("files"), .arr [])]
    (by decide)

/-- Totality of the code-point key order. -/
theorem charsLe_total : ∀ a b : List Char, charsLe a b = true ∨ charsLe b a = true
  | [], _ => Or.inl rfl
  | _ :: _, [] => Or.inr rfl
  | a :: as, b :: bs => by
    by_cases h1 : a.toNat < b.toNat
    · left
      simp [charsLe, h1]
    · by_cases h2 : b.toNat < a.toNat
      · right
        simp [charsLe, h2]
      · rcases charsLe_total as bs with ht | ht
        · left; simp [charsLe, h1, h2, ht]
        · right; simp [charsLe, h1, h2, ht]

theorem keyLe_total (a b : String) : keyLe a b = true ∨ keyLe b a = true :=
  charsLe_total a.data b.data

/-- The head of an insertion is the new pair or the old head. -/
theorem insF_head_cases (k : String) (v : JVal) :
    ∀ l : List (String × JVal), (insF k v l).head? = some (k, v) ∨ (insF k v l).head? = l.head?
  | [] => Or.inl rfl
  | (k1, v1) :: rest => by
    by_cases h : keyLe k k1 = true
    · left; simp [insF, h]
    · right; simp [insF, h]

/-- Insertion into a key-ordered list keeps it key-ordered. -/
theorem chainLe_insF (k : String) (v : JVal) :
    ∀ l, chainLe l = true → chainLe (insF k v l) = true := by
  intro l
  induction l with
  | nil => intro _; rfl
  | cons kv1 rest ih =>
    obtain ⟨k1, v1⟩ := kv1
    intro h
    by_cases hk : keyLe k k1 = true
    · have hrest : chainLe ((k1, v1) :: rest) = true := h
      simp only [insF, if_pos hk, chainLe, hk, Bool.true_and]
      exact hrest
    · have hk1 : keyLe k1 k = true := by
        rcases keyLe_total k k1 with ht | ht
        · exact absurd ht hk
        · exact ht
      have hrest : chainLe rest = true := by
        match rest with
        | [] => rfl
        | y :: more =>
          simp only [chainLe, Bool.and_eq_true] at h
          exact h.2
      have hins := ih hrest
      rw [insF, if_neg hk]
      match hi : insF k v rest with
      | [] => rfl
      | (k2, v2) :: tail =>
        rw [hi] at hins
        have hhead : keyLe k1 k2 = true := by
          rcases insF_head_cases k v rest with hh | hh
          · rw [hi] at hh
            simp only [List.head?_cons, Option.some.injEq, Prod.mk.injEq] at hh
            rw [hh.1]
            exact hk1
          · rw [hi] at hh
            match rest, hh with
            | (k3, v3) :: more, hh2 =>
              simp only [List.head?_cons, Option.some.injEq, Prod.mk.injEq] at hh2
              simp only [chainLe, Bool.and_eq_true] at h
              rw [hh2.1]
              exact h.1
        simp only [chainLe, Bool.and_eq_true]
        exact ⟨hhead, hins⟩

/-- The insertion sort of any field list is key-ordered. -/
theorem chainLe_sortF : ∀ l, chainLe (sortF l) = true
  | [] => rfl
  | (k, v) :: rest => chainLe_insF k v (sortF rest) (chainLe_sortF rest)

/-- Insertion preserves the recursive sortedness of the values. -/
theorem keysSortedF_insF (k : String) (v : JVal) (l : List (String × JVal)) :
    keysSortedF (insF k v l) = (keysSortedV v && keysSortedF l) := by
  induction l with
  | nil => simp [insF, keysSortedF]
  | cons kv rest ih =>
    obtain ⟨k1, v1⟩ := kv
    by_cases hk : keyLe k k1 = true
    · rw [insF, if_pos hk]
      simp [keysSortedF]
    · rw [insF, if_neg hk]
      simp only [keysSortedF, ih]
      cases keysSortedV v <;> cases keysSortedV v1 <;> cases keysSortedF rest <;> rfl

/-- Sorting preserves the recursive sortedness of the values. -/
theorem keysSortedF_sortF : ∀ l, keysSortedF (sortF l) = keysSortedF l
  | [] => rfl
  | (k, v) :: rest => by
    simp only [sortF, keysSortedF_insF, keysSortedF, keysSortedF_sortF rest]

/-- Every canonicalized tree has its mapping keys in sorted order at every
depth: the formal content of json.dumps(..., sort_keys=True). -/
theorem keysSortedV_canon (v : JVal) : keysSortedV (canon v) = true := by
  refine @JVal.rec
    (fun v => keysSortedV (canon v) = true)
    (fun xs => keysSortedI (canonItems xs) = true)
    (fun kvs => keysSortedF (canonFields kvs) = true)
    (fun kv => keysSortedV (canon kv.2) = true)
    ?_ ?_ ?_ ?_ ?_ ?_ ?_ ?_ ?_ ?_ ?_ v
  · rfl
  · intro b; rfl
  · intro n; rfl
  · intro s; rfl
  · intro xs ih
    simp only [canon, keysSortedV]
    exact ih
  · intro kvs ih
    simp only [canon, keysSortedV, chainLe_sortF, keysSortedF_sortF, ih,
      Bool.and_self]
  · rfl
  · intro x xs ih1 ih2
    simp only [canonItems, keysSortedI, ih1, ih2, Bool.and_self]
  · rfl
  · intro kv kvs ih1 ih2
    obtain ⟨k, v2⟩ := kv
    simp only [canonFields, keysSortedF, Bool.and_eq_true]
    exact ⟨ih1, ih2⟩
  · intro k v2 ih
    exact ih

/-- Claim C9: the transform is a function of the canonical form of its
parsed source alone — two sources with identical canonical trees (in
particular, two runs on identical input) produce byte-identical output —
and every successful output is the fixed-indentation serialization of a
tree whose keys are recursively sorted. -/
theorem c9_deterministic_sorted :
    (∀ t1 t2 : JVal, canon t1 = canon t2 → TransformConfig t1 = TransformConfig t2) ∧
    (∀ (t : JVal) (out : String), TransformConfig t = Except.ok out →
      ∃ u : JVal, keysSortedV u = true ∧ out = jsonDumps 0 u) := by
  constructor
  · intro t1 t2 h
    simp only [TransformConfig, h]
  · intro t out hout
    simp only [TransformConfig] at hout
    cases hm : dictGet (canon t) MODELS with
    | error e =>
      rw [hm, exbind_error] at hout
      cases hout
    | ok models =>
      rw [hm, exbind_ok] at hout
      match models, hout with
      | .arr items, hout2 =>
        have hout3 : (do
            let items2 ← mapEx deriveModel items
            pure (dumpsSorted (JVal.obj [(MODELS, JVal.arr items2)])) :
            Except String String) = Except.ok out := hout2
        cases hd : mapEx deriveModel items with
        | error e =>
          rw [hd, exbind_error] at hout3
          cases hout3
        | ok items2 =>
          rw [hd, exbind_ok] at hout3
          refine ⟨canon (.obj [(MODELS, .arr items2)]), keysSortedV_canon _, ?_⟩
          have h4 : Except.ok (dumpsSorted (JVal.obj [(MODELS, JVal.arr items2)]))
              = (Except.ok out : Except String String) := hout3
          cases h4
          rfl

/-- Claim C9, witness: two concrete sources differing only in top-level
key order canonicalize alike, so the transform output is byte-identical,
and that output serializes a key-sorted tree. -/
theorem c9_deterministic_sorted_witness :
    canon c9t1 = canon c9t2 ∧
    TransformConfig c9t1 = TransformConfig c9t2 ∧
    TransformConfig c9t1 = Except.ok c9out ∧
    (∃ u, keysSortedV u = true ∧ c9out = jsonDumps 0 u) :=
  ⟨by decide,
   c9_deterministic_sorted.1 c9t1 c9t2 (by decide),
   by decide,
   c9_deterministic_sorted.2 c9t1 c9out (by decide)⟩

/-- Claim C7, witness: the uniqueness theorem applied to the concrete
document with two models both named reef — a violation is raised and its
message names reef. -/
theorem c7_name_uniqueness_witness :
    (∃ e, ValidateConfig c7doc = Except.error e) ∧
    (∀ e, ValidateConfig c7doc = Except.error e → ∃ a b, e = a ++ ("reef") ++ b) := by
  have h := c7_name_uniqueness
    [(("models"), .arr [.obj [(("name"), .str "reef")], .obj [(("name"), .str "reef")]])]
    [.obj [(("name"), .str "reef")], .obj [(("name"), .str "reef")]]
    [.str "reef", .str "reef"] (by decide) (by decide)
  exact ⟨h.1.mpr ⟨.str "reef", by decide⟩, fun e he => h.2 e he ("reef") (by decide)⟩
